import Mathlib

/-!
Shallow embedding of the motion-planning core of `src/raveInterface.py`
(class `Motion_planning`): the optimization-request builder
(`__set_request`, lines 48-118), the safety validator (`__check_safe`,
lines 201-212), the per-segment escalation controller and trajectory
assembler (`optimize`, lines 138-194), and the per-arm DOF records
(`set_manip`, lines 128-136).

External collaborators are abstracted as a record `Env` of functions:
the OpenRAVE environment and collision checker (`CheckCollision` on two
link indices at the current arm pose), the trajopt solver
(`ConstructProblem`/`OptimizeProblem`, a function of the request and the
current arm pose), the IK module's forward kinematics
(`get_endEffector_fromDOF`), numpy's Euclidean norm, and the last entry
of the robot's lower joint-limit array (`GetDOFLimits()[0][-1]`).

Joint values (Python floats) are modelled as rationals.  Mutable state
(the robot's current arm pose, the stored per-arm DOF lists, the
accumulated output trajectory) is passed explicitly.  The coarse planner
(`__init_traj`) is upstream and external: `optimize` takes its waypoint
list as an argument.  Within one `optimize` run only the planned arm's
pose is ever set and read, so the pose is the planned arm's joint
vector; viewer and sleep calls are ignored.
-/

namespace MotionPlanning

/-- Joint-angle vector: a Python list of joint values, one per DOF of
the active manipulator. -/
abbrev Vec := List ℚ

/-- The `init_info` value of a trajopt request: the initialization
strategies `optimize` uses (`straight_line` with an endpoint, or
`stationary`). -/
inductive InitInfo where
  | straight_line (endpoint : Vec)
  | stationary
deriving DecidableEq

/-- One entry of the `costs` list of a trajopt request (lines 62-87):
either the joint-velocity cost or a collision cost with penalty
coefficients, a distance-penalty threshold, and a continuous flag. -/
inductive Cost where
  | joint_vel (coeffs : List ℚ)
  | collision (coeffs : List ℚ) (dist_pen : List ℚ) (continuous : Bool)
deriving DecidableEq

/-- One entry of the `constraints` list of a trajopt request
(lines 89-115): a joint-space target or a Cartesian-velocity bound on a
named link over a step range. -/
inductive Constrnt where
  | joint (vals : Vec)
  | cart_vel (name : String) (max_displacement : ℚ) (first_step : ℤ)
      (last_step : ℤ) (link : String)
deriving DecidableEq

/-- The `basic_info` part of a trajopt request (lines 56-60). -/
structure BasicInfo where
  n_steps : ℤ
  manip : String
  start_fixed : Bool
deriving DecidableEq

/-- A trajopt optimization request (`self.request`).  `init_info` is an
optional field because the source deletes the key (`del
self.request['init_info']`, line 165) and re-inserts it on every
escalation attempt; `none` models the absent key. -/
structure Request where
  basic_info : BasicInfo
  costs : List Cost
  constraints : List Constrnt
  init_info : Option InitInfo
deriving DecidableEq

/-- External collaborators of the planner, abstracted as pure functions
of the planned arm's joint vector.  `collide a b p` is
`env.CheckCollision(kin.GetLinks()[a], kin.GetLinks()[b])` with the
planned arm at pose `p`; `solver` is trajopt's
`OptimizeProblem(ConstructProblem(request))` run with the planned arm at
the given current pose; `limitLast` is `robot.GetDOFLimits()[0][-1]`. -/
structure Env where
  fk : Vec → Vec
  norm : Vec → ℚ
  solver : Request → Vec → List Vec
  collide : Nat → Nat → Vec → Bool
  limitLast : ℚ

/-- Embedding of `Motion_planning.__set_request` (lines 48-118): builds
the fixed request document for one manipulator, joint target and step
count.  The built dictionary carries no `init_info` key. -/
def set_request (manip : String) (joint_target : Vec) (n_steps : ℤ) : Request where
  basic_info := { n_steps := n_steps, manip := manip, start_fixed := true }
  costs := [ Cost.joint_vel [100, 100, 1],
             Cost.collision [10000] [1/10] true,
             Cost.collision [10000] [1/10] false ]
  constraints := [ Constrnt.joint joint_target,
                   Constrnt.cart_vel ("s0_vel") 1 0 (n_steps - 1) ("s0"),
                   Constrnt.cart_vel ("s1_vel") 1 0 (n_steps - 1) ("s1") ]
  init_info := none

/-- Embedding of `Motion_planning.__check_safe` (lines 201-212): walk
the candidate trajectory in order, set the arm pose to each sample, and
query collision between links 3 and 6; return the verdict (`true` =
safe) together with the arm pose left behind.  The incoming pose is the
arm pose current when the validator starts. -/
def check_safe (env : Env) : List Vec → Vec → Bool × Vec
  | [], pose => (true, pose)
  | t :: ts, _ =>
    if env.collide 3 6 t then (false, t) else check_safe env ts t

/-- Replace the last entry of a list (Python `xs[-1] = v`).  The source
only ever applies this to nonempty DOF vectors (a manipulator has at
least one joint); on `[]` Python would raise, and this model returns
`[]`. -/
def setLast : Vec → ℚ → Vec
  | [], _ => []
  | [_], v => [v]
  | x :: y :: tl, v => x :: setLast (y :: tl) v

/-- Strategy selection for escalation attempt `j` (lines 171-181):
returns the `init_info` value for the attempt together with the stored
per-arm DOF record after the attempt.  `j = 0` is straight-line to the
target, `j = 1` retracts the last joint of the stored DOF record in
place (`pull_back[-1] = max(limit, pull_back[-1] - 5)`, line 177) and
aims the straight line at the mutated record, `j = 2` is stationary.
For `j` outside 0..2 no key is inserted (`none`), matching the deleted
key of line 165. -/
def initFor (env : Env) (j : Nat) (target : Vec) (dof : Vec) : Option InitInfo × Vec :=
  if j = 0 then (some (InitInfo.straight_line target), dof)
  else if j = 1 then
    (some (InitInfo.straight_line (setLast dof (max env.limitLast (dof.getLastD 0 - 5)))),
      setLast dof (max env.limitLast (dof.getLastD 0 - 5)))
  else if j = 2 then (some InitInfo.stationary, dof)
  else (none, dof)

/-- Record of one escalation attempt: the strategy index `j`, the full
request submitted to the solver, the arm pose current when the solver
was invoked, the candidate trajectory returned, and the safety
verdict. -/
structure Attempt where
  j : Nat
  req : Request
  posePre : Vec
  cand : List Vec
  safe : Bool
deriving DecidableEq

/-- Outcome of the escalation loop for one segment: the attempts made in
order, the arm pose and the stored per-arm DOF record after the loop,
and either the accepted candidate trajectory or the raised error. -/
structure SegOut where
  attempts : List Attempt
  pose : Vec
  dof : Vec
  result : Except String (List Vec)

/-- Body of one escalation attempt (lines 164-187): delete and
re-insert `init_info` for strategy `j`, submit the request to the solver
at the current arm pose, validate the candidate.  Returns the attempt
record together with the arm pose and the stored DOF record after the
attempt. -/
def attemptStep (env : Env) (req0 : Request) (target : Vec) (j : Nat)
    (pose dof : Vec) : Attempt × Vec × Vec :=
  let s := initFor env j target dof
  let req : Request := { req0 with init_info := s.1 }
  let cand := env.solver req pose
  let chk := check_safe env cand pose
  (⟨j, req, pose, cand, chk.1⟩, chk.2, s.2)

/-- Embedding of the escalation loop `for j in range(3)` of
`Motion_planning.optimize` (lines 164-192), generalized over the list of
remaining strategy indices (the loop runs it on `[0, 1, 2]`).  On a safe
verdict the loop breaks and the candidate is accepted; on an unsafe
verdict at `j = 2` the exception `'No path is safe'` is raised;
otherwise the next strategy runs from the pose and DOF record the
attempt left behind. -/
def runAttempts (env : Env) (req0 : Request) (target : Vec) :
    List Nat → Vec → Vec → SegOut
  | [], pose, dof => ⟨[], pose, dof, Except.error ("escalation loop exhausted")⟩
  | j :: js, pose, dof =>
    let st := attemptStep env req0 target j pose dof
    if st.1.safe then ⟨[st.1], st.2.1, st.2.2, Except.ok st.1.cand⟩
    else if j = 2 then ⟨[st.1], st.2.1, st.2.2, Except.error ("No path is safe")⟩
    else
      let o := runAttempts env req0 target js st.2.1 st.2.2
      ⟨st.1 :: o.attempts, o.pose, o.dof, o.result⟩

/-- Cartesian end-effector displacement of a segment (lines 157-159):
`np.linalg.norm(np.array(eff1) - np.array(eff2))` with
`eff1 = fk(trajectory[i+1])` and `eff2 = fk(trajectory[i])`. -/
def dispOf (env : Env) (w1 w2 : Vec) : ℚ :=
  env.norm (List.zipWith (fun a b => a - b) (env.fk w2) (env.fk w1))

/-- Step count of a segment (line 160):
`max(int(ceil(dis / step_dis_ratio)), 3)` with `step_dis_ratio = 0.5`
(line 156). -/
def segSteps (env : Env) (w1 w2 : Vec) : ℤ :=
  max ⌈dispOf env w1 w2 / (1/2 : ℚ)⌉ 3

/-- Modelled from the spec's step-count formula, for refinement against
`segSteps`: step count = `max(ceil(displacement / 0.5), 3)`. -/
def specSteps (d : ℚ) : ℤ :=
  max ⌈d / (1/2 : ℚ)⌉ 3

/-- One iteration of the outer segment loop of `Motion_planning.optimize`
(lines 155-192) for the segment `(w1, w2)`: compute the step count,
build the base request for the end waypoint `w2` (which also sets
`self.target = w2`), prime the arm pose to the start waypoint `w1`
(line 162), and run the escalation loop on strategies `[0, 1, 2]` with
the stored DOF record `dof` of the planned arm. -/
def refineSegment (env : Env) (manip : String) (w1 w2 : Vec) (dof : Vec) : SegOut :=
  runAttempts env (set_request manip w2 (segSteps env w1 w2)) w2 [0, 1, 2] w1 dof

/-- The stored per-arm DOF records `self.left_arm_DOF` and
`self.right_arm_DOF`. -/
structure ArmState where
  left_arm_DOF : Vec
  right_arm_DOF : Vec
deriving DecidableEq

/-- Name-keyed read of the stored per-arm DOF record
(`eval('self.' + self.plan_arm + '_DOF')`, line 176); the source only
uses the names `left_arm` and `right_arm`. -/
def getArmDOF (s : ArmState) (name : String) : Vec :=
  if name = ("left_arm") then s.left_arm_DOF else s.right_arm_DOF

/-- Embedding of `Motion_planning.set_manip` (lines 128-136): store the
DOF record for the named arm.  Its robot-pose side effect is dropped
from the model because `optimize` re-primes the pose to the segment
start before any use (line 162).  This same update also models the
in-place mutation of the stored list at line 177. -/
def set_manip (s : ArmState) (name : String) (DOF : Vec) : ArmState :=
  if name = ("left_arm") then { s with left_arm_DOF := DOF }
  else if name = ("right_arm") then { s with right_arm_DOF := DOF }
  else s

/-- The outer segment loop of `Motion_planning.optimize` (lines
155-193), with `acc` the accumulated `self.traj`: for each consecutive
waypoint pair, refine the segment; on success append the accepted
candidate (`self.traj += result.GetTraj().tolist()`, line 193) and
continue with the (possibly mutated) stored DOF record; on failure the
exception propagates, so the run produces only the error. -/
def optimizeFrom (env : Env) (manip : String) :
    List Vec → ArmState → List Vec → ArmState × Except String (List Vec)
  | w1 :: w2 :: rest, s, acc =>
    match (refineSegment env manip w1 w2 (getArmDOF s manip)).result with
    | Except.error e =>
      (set_manip s manip (refineSegment env manip w1 w2 (getArmDOF s manip)).dof,
        Except.error e)
    | Except.ok cand =>
      optimizeFrom env manip (w2 :: rest)
        (set_manip s manip (refineSegment env manip w1 w2 (getArmDOF s manip)).dof)
        (acc ++ cand)
  | _, s, acc => (s, Except.ok acc)

/-- Embedding of `Motion_planning.optimize` (lines 138-194) downstream
of the external coarse planner: `waypoints` is the list returned by
`__init_traj`, `s` holds the stored per-arm DOF records, and the result
is the final records together with the assembled trajectory
(`self.traj`, starting empty at line 152) or the raised error. -/
def optimize (env : Env) (manip : String) (s : ArmState) (waypoints : List Vec) :
    ArmState × Except String (List Vec) :=
  optimizeFrom env manip waypoints s []

/-- The list of accepted per-segment candidate trajectories, one entry
per waypoint pair, in waypoint order; `none` when some segment fails. -/
def segmentCands (env : Env) (manip : String) :
    List Vec → ArmState → Option (List (List Vec))
  | w1 :: w2 :: rest, s =>
    match (refineSegment env manip w1 w2 (getArmDOF s manip)).result with
    | Except.error _ => none
    | Except.ok cand =>
      (segmentCands env manip (w2 :: rest)
          (set_manip s manip (refineSegment env manip w1 w2 (getArmDOF s manip)).dof)).map
        (fun cs => cand :: cs)
  | _, _ => some []

/-- Concrete environment: no collisions ever, solver always returns the
two-sample candidate `[[1], [2]]`. -/
def envAllSafe : Env where
  fk := fun l => l
  norm := fun _ => 0
  solver := fun _ _ => [[1], [2]]
  collide := fun _ _ _ => false
  limitLast := 0

/-- Concrete environment: every pose is in collision. -/
def envAllBad : Env where
  fk := fun l => l
  norm := fun _ => 0
  solver := fun _ _ => [[1]]
  collide := fun _ _ _ => true
  limitLast := 0

/-- Concrete environment in which the straight-line-to-`[9]` candidate
is unsafe at its second sample `[2]` and every other candidate is safe:
exercises one escalation retry. -/
def envRetry : Env where
  fk := fun l => l
  norm := fun _ => 0
  solver := fun req _ =>
    if req.init_info = some (InitInfo.straight_line [9]) then [[1], [2]] else [[3]]
  collide := fun _ _ t => decide (t = [2])
  limitLast := 0

/-- The single attempt made by `refineSegment envAllSafe "right_arm"
[0] [1] [0]`, spelled out as a literal. -/
def wAttempt : Attempt where
  j := 0
  req := { set_request ("right_arm") [1] (segSteps envAllSafe [0] [1]) with
            init_info := some (InitInfo.straight_line [1]) }
  posePre := [0]
  cand := [[1], [2]]
  safe := true

theorem attemptStep_j (env : Env) (req0 : Request) (target : Vec) (j : Nat)
    (pose dof : Vec) : (attemptStep env req0 target j pose dof).1.j = j := rfl

theorem attemptStep_posePre (env : Env) (req0 : Request) (target : Vec) (j : Nat)
    (pose dof : Vec) : (attemptStep env req0 target j pose dof).1.posePre = pose := rfl

theorem attemptStep_req (env : Env) (req0 : Request) (target : Vec) (j : Nat)
    (pose dof : Vec) : (attemptStep env req0 target j pose dof).1.req
      = { req0 with init_info := (initFor env j target dof).1 } := rfl

theorem attemptStep_cand (env : Env) (req0 : Request) (target : Vec) (j : Nat)
    (pose dof : Vec) : (attemptStep env req0 target j pose dof).1.cand
      = env.solver { req0 with init_info := (initFor env j target dof).1 } pose := rfl

theorem attemptStep_safe (env : Env) (req0 : Request) (target : Vec) (j : Nat)
    (pose dof : Vec) : (attemptStep env req0 target j pose dof).1.safe
      = (check_safe env ((attemptStep env req0 target j pose dof).1.cand) pose).1 := rfl

theorem attemptStep_pose2 (env : Env) (req0 : Request) (target : Vec) (j : Nat)
    (pose dof : Vec) : (attemptStep env req0 target j pose dof).2.1
      = (check_safe env ((attemptStep env req0 target j pose dof).1.cand) pose).2 := rfl

theorem attemptStep_dof2 (env : Env) (req0 : Request) (target : Vec) (j : Nat)
    (pose dof : Vec) : (attemptStep env req0 target j pose dof).2.2
      = (initFor env j target dof).2 := rfl

/-- Unfolding equation of `runAttempts` on a nonempty strategy list. -/
theorem runAttempts_cons (env : Env) (req0 : Request) (target : Vec)
    (j : Nat) (js : List Nat) (pose dof : Vec) :
    runAttempts env req0 target (j :: js) pose dof =
      if (attemptStep env req0 target j pose dof).1.safe then
        ⟨[(attemptStep env req0 target j pose dof).1],
          (attemptStep env req0 target j pose dof).2.1,
          (attemptStep env req0 target j pose dof).2.2,
          Except.ok (attemptStep env req0 target j pose dof).1.cand⟩
      else if j = 2 then
        ⟨[(attemptStep env req0 target j pose dof).1],
          (attemptStep env req0 target j pose dof).2.1,
          (attemptStep env req0 target j pose dof).2.2,
          Except.error ("No path is safe")⟩
      else
        ⟨(attemptStep env req0 target j pose dof).1 ::
            (runAttempts env req0 target js (attemptStep env req0 target j pose dof).2.1
              (attemptStep env req0 target j pose dof).2.2).attempts,
          (runAttempts env req0 target js (attemptStep env req0 target j pose dof).2.1
            (attemptStep env req0 target j pose dof).2.2).pose,
          (runAttempts env req0 target js (attemptStep env req0 target j pose dof).2.1
            (attemptStep env req0 target j pose dof).2.2).dof,
          (runAttempts env req0 target js (attemptStep env req0 target j pose dof).2.1
            (attemptStep env req0 target j pose dof).2.2).result⟩ := rfl

/-- The escalation loop makes at least one attempt when at least one
strategy index remains. -/
theorem runAttempts_ne_nil (env : Env) (req0 : Request) (target : Vec)
    (j : Nat) (js : List Nat) (pose dof : Vec) :
    (runAttempts env req0 target (j :: js) pose dof).attempts ≠ [] := by
  rw [runAttempts_cons]
  split
  · simp
  · split <;> simp

/-- The first attempt of the escalation loop runs the solver at the arm
pose the loop was entered with. -/
theorem runAttempts_head_posePre (env : Env) (req0 : Request) (target : Vec)
    (j : Nat) (js : List Nat) (pose dof : Vec) :
    ((runAttempts env req0 target (j :: js) pose dof).attempts.head?).map
      (fun a => a.posePre) = some pose := by
  rw [runAttempts_cons]
  split
  · simp [attemptStep_posePre]
  · split <;> simp [attemptStep_posePre]

/-- The strategy indices of the attempts made are an initial run of the
given index list: strategies run in the given order, each at most
once. -/
theorem runAttempts_j_trace (env : Env) (req0 : Request) (target : Vec) :
    ∀ (js : List Nat) (pose dof : Vec),
    (runAttempts env req0 target js pose dof).attempts.map (fun a => a.j)
      = js.take (runAttempts env req0 target js pose dof).attempts.length := by
  intro js
  induction js with
  | nil => intro pose dof; simp [runAttempts]
  | cons j js ih =>
    intro pose dof
    rw [runAttempts_cons]
    split
    · simp [attemptStep_j]
    · split
      · simp [attemptStep_j]
      · simp [attemptStep_j, ih]

/-- Every attempt before the last one was judged unsafe: as soon as a
candidate is judged safe the loop stops. -/
theorem runAttempts_unsafe_dropLast (env : Env) (req0 : Request) (target : Vec) :
    ∀ (js : List Nat) (pose dof : Vec),
    ((runAttempts env req0 target js pose dof).attempts.dropLast).all
      (fun a => !a.safe) = true := by
  intro js
  induction js with
  | nil => intro pose dof; simp [runAttempts]
  | cons j js ih =>
    intro pose dof
    rw [runAttempts_cons]
    split
    · simp
    · split
      · simp
      · rename_i hchk _
        cases ho : (runAttempts env req0 target js
            (attemptStep env req0 target j pose dof).2.1
            (attemptStep env req0 target j pose dof).2.2).attempts with
        | nil => simp [ho]
        | cons b bs =>
          have hall := ih (attemptStep env req0 target j pose dof).2.1
            (attemptStep env req0 target j pose dof).2.2
          rw [ho] at hall
          simp only [Bool.not_eq_true] at hchk
          simp [ho, hall, List.dropLast, hchk]

/-- Each attempt after the first runs the solver at exactly the arm pose
the safety validator left after the previous attempt; the whole pose
trace of the loop is the entry pose followed by the validator-left
poses. -/
theorem runAttempts_pose_chain (env : Env) (req0 : Request) (target : Vec) :
    ∀ (js : List Nat) (j : Nat) (pose dof : Vec),
    (runAttempts env req0 target (j :: js) pose dof).attempts.map (fun a => a.posePre)
      = pose :: ((runAttempts env req0 target (j :: js) pose dof).attempts.dropLast.map
          (fun a => (check_safe env a.cand a.posePre).2)) := by
  intro js
  induction js with
  | nil =>
    intro j pose dof
    rw [runAttempts_cons]
    split
    · simp [attemptStep_posePre]
    · split <;> simp [runAttempts, attemptStep_posePre]
  | cons j' js' ih =>
    intro j pose dof
    rw [runAttempts_cons]
    split
    · simp [attemptStep_posePre]
    · split
      · simp [attemptStep_posePre]
      · cases ho : (runAttempts env req0 target (j' :: js')
            (attemptStep env req0 target j pose dof).2.1
            (attemptStep env req0 target j pose dof).2.2).attempts with
        | nil =>
          exact absurd ho (runAttempts_ne_nil env req0 target j' js' _ _)
        | cons b bs =>
          have hchain := ih j' (attemptStep env req0 target j pose dof).2.1
            (attemptStep env req0 target j pose dof).2.2
          rw [ho] at hchain
          simp only [ho, List.map_cons, List.dropLast, hchain]
          simp [attemptStep_posePre, attemptStep_pose2, attemptStep_cand]

/-- Every attempt submits the base request with only `init_info`
replaced: `basic_info`, `costs` and `constraints` are those built by
`set_request`, the strategy index comes from the given list, and
`init_info` is the value `initFor` computes for some DOF record. -/
theorem runAttempts_req_fields (env : Env) (req0 : Request) (target : Vec) :
    ∀ (js : List Nat) (pose dof : Vec) (a : Attempt),
    a ∈ (runAttempts env req0 target js pose dof).attempts →
    a.req.basic_info = req0.basic_info ∧ a.req.costs = req0.costs ∧
    a.req.constraints = req0.constraints ∧ a.j ∈ js ∧
    ∃ d, a.req.init_info = (initFor env a.j target d).1 := by
  intro js
  induction js with
  | nil => intro pose dof a ha; simp [runAttempts] at ha
  | cons j js ih =>
    intro pose dof a ha
    rw [runAttempts_cons] at ha
    split at ha
    · simp at ha
      subst ha
      exact ⟨rfl, rfl, rfl, by simp [attemptStep_j], ⟨dof, rfl⟩⟩
    · split at ha
      · simp at ha
        subst ha
        exact ⟨rfl, rfl, rfl, by simp [attemptStep_j], ⟨dof, rfl⟩⟩
      · simp at ha
        rcases ha with ha | ha
        · subst ha
          exact ⟨rfl, rfl, rfl, by simp [attemptStep_j], ⟨dof, rfl⟩⟩
        · rcases ih _ _ a ha with ⟨h1, h2, h3, h4, h5⟩
          exact ⟨h1, h2, h3, List.mem_cons_of_mem j h4, h5⟩

/-- If every attempt of the full three-strategy loop is judged unsafe,
all three strategies were attempted and the loop raises
`'No path is safe'`. -/
theorem runAttempts3_exhausted (env : Env) (req0 : Request) (target : Vec)
    (pose dof : Vec)
    (h : ∀ a ∈ (runAttempts env req0 target [0, 1, 2] pose dof).attempts,
      a.safe = false) :
    (runAttempts env req0 target [0, 1, 2] pose dof).attempts.length = 3 ∧
    (runAttempts env req0 target [0, 1, 2] pose dof).result
      = Except.error ("No path is safe") := by
  by_cases h0 : (attemptStep env req0 target 0 pose dof).1.safe
  · exfalso
    have hm : (attemptStep env req0 target 0 pose dof).1
        ∈ (runAttempts env req0 target [0, 1, 2] pose dof).attempts := by
      rw [runAttempts_cons, if_pos h0]; simp
    have hc := h _ hm
    rw [hc] at h0
    exact absurd h0 (by decide)
  · have e1 : runAttempts env req0 target [0, 1, 2] pose dof
        = ⟨(attemptStep env req0 target 0 pose dof).1 ::
            (runAttempts env req0 target [1, 2]
              (attemptStep env req0 target 0 pose dof).2.1
              (attemptStep env req0 target 0 pose dof).2.2).attempts,
          (runAttempts env req0 target [1, 2]
            (attemptStep env req0 target 0 pose dof).2.1
            (attemptStep env req0 target 0 pose dof).2.2).pose,
          (runAttempts env req0 target [1, 2]
            (attemptStep env req0 target 0 pose dof).2.1
            (attemptStep env req0 target 0 pose dof).2.2).dof,
          (runAttempts env req0 target [1, 2]
            (attemptStep env req0 target 0 pose dof).2.1
            (attemptStep env req0 target 0 pose dof).2.2).result⟩ := by
      rw [runAttempts_cons, if_neg h0, if_neg (by decide)]
    by_cases h1 : (attemptStep env req0 target 1
        (attemptStep env req0 target 0 pose dof).2.1
        (attemptStep env req0 target 0 pose dof).2.2).1.safe
    · exfalso
      have hm : (attemptStep env req0 target 1
          (attemptStep env req0 target 0 pose dof).2.1
          (attemptStep env req0 target 0 pose dof).2.2).1
          ∈ (runAttempts env req0 target [0, 1, 2] pose dof).attempts := by
        rw [e1]
        simp only [List.mem_cons]
        right
        rw [runAttempts_cons, if_pos h1]
        simp
      have hc := h _ hm
      rw [hc] at h1
      exact absurd h1 (by decide)
    · have e2 : runAttempts env req0 target [1, 2]
          (attemptStep env req0 target 0 pose dof).2.1
          (attemptStep env req0 target 0 pose dof).2.2
          = ⟨(attemptStep env req0 target 1
                (attemptStep env req0 target 0 pose dof).2.1
                (attemptStep env req0 target 0 pose dof).2.2).1 ::
              (runAttempts env req0 target [2]
                (attemptStep env req0 target 1
                  (attemptStep env req0 target 0 pose dof).2.1
                  (attemptStep env req0 target 0 pose dof).2.2).2.1
                (attemptStep env req0 target 1
                  (attemptStep env req0 target 0 pose dof).2.1
                  (attemptStep env req0 target 0 pose dof).2.2).2.2).attempts,
            (runAttempts env req0 target [2]
              (attemptStep env req0 target 1
                (attemptStep env req0 target 0 pose dof).2.1
                (attemptStep env req0 target 0 pose dof).2.2).2.1
              (attemptStep env req0 target 1
                (attemptStep env req0 target 0 pose dof).2.1
                (attemptStep env req0 target 0 pose dof).2.2).2.2).pose,
            (runAttempts env req0 target [2]
              (attemptStep env req0 target 1
                (attemptStep env req0 target 0 pose dof).2.1
                (attemptStep env req0 target 0 pose dof).2.2).2.1
              (attemptStep env req0 target 1
                (attemptStep env req0 target 0 pose dof).2.1
                (attemptStep env req0 target 0 pose dof).2.2).2.2).dof,
            (runAttempts env req0 target [2]
              (attemptStep env req0 target 1
                (attemptStep env req0 target 0 pose dof).2.1
                (attemptStep env req0 target 0 pose dof).2.2).2.1
              (attemptStep env req0 target 1
                (attemptStep env req0 target 0 pose dof).2.1
                (attemptStep env req0 target 0 pose dof).2.2).2.2).result⟩ := by
        rw [runAttempts_cons, if_neg h1, if_neg (by decide)]
      by_cases h2 : (attemptStep env req0 target 2
          (attemptStep env req0 target 1
            (attemptStep env req0 target 0 pose dof).2.1
            (attemptStep env req0 target 0 pose dof).2.2).2.1
          (attemptStep env req0 target 1
            (attemptStep env req0 target 0 pose dof).2.1
            (attemptStep env req0 target 0 pose dof).2.2).2.2).1.safe
      · exfalso
        have hm : (attemptStep env req0 target 2
            (attemptStep env req0 target 1
              (attemptStep env req0 target 0 pose dof).2.1
              (attemptStep env req0 target 0 pose dof).2.2).2.1
            (attemptStep env req0 target 1
              (attemptStep env req0 target 0 pose dof).2.1
              (attemptStep env req0 target 0 pose dof).2.2).2.2).1
            ∈ (runAttempts env req0 target [0, 1, 2] pose dof).attempts := by
          rw [e1]
          simp only [List.mem_cons]
          right
          rw [e2]
          simp only [List.mem_cons]
          right
          rw [runAttempts_cons, if_pos h2]
          simp
        have hc := h _ hm
        rw [hc] at h2
        exact absurd h2 (by decide)
      · have e3 : runAttempts env req0 target [2]
            (attemptStep env req0 target 1
              (attemptStep env req0 target 0 pose dof).2.1
              (attemptStep env req0 target 0 pose dof).2.2).2.1
            (attemptStep env req0 target 1
              (attemptStep env req0 target 0 pose dof).2.1
              (attemptStep env req0 target 0 pose dof).2.2).2.2
            = ⟨[(attemptStep env req0 target 2
                  (attemptStep env req0 target 1
                    (attemptStep env req0 target 0 pose dof).2.1
                    (attemptStep env req0 target 0 pose dof).2.2).2.1
                  (attemptStep env req0 target 1
                    (attemptStep env req0 target 0 pose dof).2.1
                    (attemptStep env req0 target 0 pose dof).2.2).2.2).1],
              (attemptStep env req0 target 2
                (attemptStep env req0 target 1
                  (attemptStep env req0 target 0 pose dof).2.1
                  (attemptStep env req0 target 0 pose dof).2.2).2.1
                (attemptStep env req0 target 1
                  (attemptStep env req0 target 0 pose dof).2.1
                  (attemptStep env req0 target 0 pose dof).2.2).2.2).2.1,
              (attemptStep env req0 target 2
                (attemptStep env req0 target 1
                  (attemptStep env req0 target 0 pose dof).2.1
                  (attemptStep env req0 target 0 pose dof).2.2).2.1
                (attemptStep env req0 target 1
                  (attemptStep env req0 target 0 pose dof).2.1
                  (attemptStep env req0 target 0 pose dof).2.2).2.2).2.2,
              Except.error ("No path is safe")⟩ := by
          rw [runAttempts_cons, if_neg h2, if_pos rfl]
        constructor
        · rw [e1, e2, e3]
          simp
        · rw [e1, e2, e3]

/-- If more than one attempt was made for a segment, the retraction
strategy ran, so the loop's outgoing stored DOF record is the incoming
one with its last joint pulled back. -/
theorem runAttempts3_dof (env : Env) (req0 : Request) (target : Vec)
    (pose dof : Vec)
    (h : 2 ≤ (runAttempts env req0 target [0, 1, 2] pose dof).attempts.length) :
    (runAttempts env req0 target [0, 1, 2] pose dof).dof
      = setLast dof (max env.limitLast (dof.getLastD 0 - 5)) := by
  by_cases h0 : (attemptStep env req0 target 0 pose dof).1.safe
  · have e : runAttempts env req0 target [0, 1, 2] pose dof
        = ⟨[(attemptStep env req0 target 0 pose dof).1],
          (attemptStep env req0 target 0 pose dof).2.1,
          (attemptStep env req0 target 0 pose dof).2.2,
          Except.ok (attemptStep env req0 target 0 pose dof).1.cand⟩ := by
      rw [runAttempts_cons, if_pos h0]
    rw [e] at h
    simp at h
  · have e1 : (runAttempts env req0 target [0, 1, 2] pose dof).dof
        = (runAttempts env req0 target [1, 2]
            (attemptStep env req0 target 0 pose dof).2.1
            (attemptStep env req0 target 0 pose dof).2.2).dof := by
      rw [runAttempts_cons, if_neg h0, if_neg (by decide)]
    have hd0 : (attemptStep env req0 target 0 pose dof).2.2 = dof := by
      rw [attemptStep_dof2]; simp [initFor]
    rw [e1, hd0]
    by_cases h1 : (attemptStep env req0 target 1
        (attemptStep env req0 target 0 pose dof).2.1 dof).1.safe
    · rw [runAttempts_cons, if_pos h1]
      rw [attemptStep_dof2]
      simp [initFor]
    · have e2 : (runAttempts env req0 target [1, 2]
          (attemptStep env req0 target 0 pose dof).2.1 dof).dof
          = (runAttempts env req0 target [2]
              (attemptStep env req0 target 1
                (attemptStep env req0 target 0 pose dof).2.1 dof).2.1
              (attemptStep env req0 target 1
                (attemptStep env req0 target 0 pose dof).2.1 dof).2.2).dof := by
        rw [runAttempts_cons, if_neg h1, if_neg (by decide)]
      have hd1 : (attemptStep env req0 target 1
          (attemptStep env req0 target 0 pose dof).2.1 dof).2.2
          = setLast dof (max env.limitLast (dof.getLastD 0 - 5)) := by
        rw [attemptStep_dof2]; simp [initFor]
      rw [e2, hd1]
      by_cases h2 : (attemptStep env req0 target 2
          (attemptStep env req0 target 1
            (attemptStep env req0 target 0 pose dof).2.1 dof).2.1
          (setLast dof (max env.limitLast (dof.getLastD 0 - 5)))).1.safe
      · rw [runAttempts_cons, if_pos h2, attemptStep_dof2]
        simp [initFor]
      · rw [runAttempts_cons, if_neg h2, if_pos rfl, attemptStep_dof2]
        simp [initFor]

/-- Writing the last entry of a nonempty list makes that entry its last
element. -/
theorem getLastD_setLast : ∀ (l : Vec) (v d : ℚ), l ≠ [] → (setLast l v).getLastD d = v := by
  intro l
  induction l with
  | nil => intro v d h; exact absurd rfl h
  | cons x tl ih =>
    intro v d _
    cases tl with
    | nil => rfl
    | cons y tl2 =>
      show (x :: setLast (y :: tl2) v).getLastD d = v
      rw [List.getLastD_cons]
      exact ih v x (by simp)

/-- The validator reports safe exactly when no sample is in collision
between links 3 and 6. -/
theorem check_safe_true_iff (env : Env) : ∀ (traj : List Vec) (pose : Vec),
    (check_safe env traj pose).1 = true ↔ ∀ t ∈ traj, env.collide 3 6 t = false := by
  intro traj
  induction traj with
  | nil => intro pose; simp [check_safe]
  | cons t ts ih =>
    intro pose
    by_cases hc : env.collide 3 6 t
    · simp [check_safe, hc]
    · have hc' : env.collide 3 6 t = false := by simpa using hc
      simp [check_safe, hc', ih t]

/-- Unfolding equation of `optimizeFrom` on a two-waypoint head. -/
theorem optimizeFrom_cons (env : Env) (manip : String) (w1 w2 : Vec)
    (rest : List Vec) (s : ArmState) (acc : List Vec) :
    optimizeFrom env manip (w1 :: w2 :: rest) s acc =
      match (refineSegment env manip w1 w2 (getArmDOF s manip)).result with
      | Except.error e =>
        (set_manip s manip (refineSegment env manip w1 w2 (getArmDOF s manip)).dof,
          Except.error e)
      | Except.ok cand =>
        optimizeFrom env manip (w2 :: rest)
          (set_manip s manip (refineSegment env manip w1 w2 (getArmDOF s manip)).dof)
          (acc ++ cand) := rfl

/-- Unfolding equation of `segmentCands` on a two-waypoint head. -/
theorem segmentCands_cons (env : Env) (manip : String) (w1 w2 : Vec)
    (rest : List Vec) (s : ArmState) :
    segmentCands env manip (w1 :: w2 :: rest) s =
      match (refineSegment env manip w1 w2 (getArmDOF s manip)).result with
      | Except.error _ => none
      | Except.ok cand =>
        (segmentCands env manip (w2 :: rest)
            (set_manip s manip (refineSegment env manip w1 w2 (getArmDOF s manip)).dof)).map
          (fun cs => cand :: cs) := rfl

/-- When every segment is accepted, the assembled trajectory is the
incoming accumulator followed by the accepted candidates joined in
order. -/
theorem optimizeFrom_segmentCands (env : Env) (manip : String) :
    ∀ (ws : List Vec) (s : ArmState) (acc : List Vec) (cs : List (List Vec)),
    segmentCands env manip ws s = some cs →
    (optimizeFrom env manip ws s acc).2 = Except.ok (acc ++ cs.flatten) := by
  intro ws
  induction ws with
  | nil =>
    intro s acc cs h
    simp [segmentCands] at h
    subst h
    simp [optimizeFrom]
  | cons w1 tl ih =>
    cases tl with
    | nil =>
      intro s acc cs h
      simp [segmentCands] at h
      subst h
      simp [optimizeFrom]
    | cons w2 rest =>
      intro s acc cs h
      rw [segmentCands_cons] at h
      cases hres : (refineSegment env manip w1 w2 (getArmDOF s manip)).result with
      | error e => rw [hres] at h; simp at h
      | ok cand =>
        rw [hres] at h
        simp only [Option.map_eq_some'] at h
        rcases h with ⟨cs', hcs', hcseq⟩
        subst hcseq
        rw [optimizeFrom_cons, hres]
        have hrec := ih (set_manip s manip
          (refineSegment env manip w1 w2 (getArmDOF s manip)).dof) (acc ++ cand) cs' hcs'
        rw [hrec]
        simp

/-- Claim C1: for every segment, the escalation loop attempts the
initialization strategies in the strict fixed order j = 0 (straight line
to target), j = 1 (straight line to retracted pose), j = 2 (stationary)
— the attempted indices are an initial run of `[0, 1, 2]`, so each
strategy runs at most once — and every attempt before the last was
judged unsafe, so as soon as a candidate is judged safe no later
strategy is attempted. -/
theorem escalation_order_short_circuit (env : Env) (manip : String) (w1 w2 dof : Vec) :
    (refineSegment env manip w1 w2 dof).attempts.map (fun a => a.j)
      = [0, 1, 2].take (refineSegment env manip w1 w2 dof).attempts.length
    ∧ ((refineSegment env manip w1 w2 dof).attempts.dropLast).all
        (fun a => !a.safe) = true :=
  ⟨runAttempts_j_trace env (set_request manip w2 (segSteps env w1 w2)) w2 [0, 1, 2] w1 dof,
   runAttempts_unsafe_dropLast env (set_request manip w2 (segSteps env w1 w2)) w2 [0, 1, 2] w1 dof⟩

/-- Claim C2: the computed step count for a segment equals
`max(ceil(displacement / 0.5), 3)` where the displacement is the
Cartesian end-effector distance between the two waypoints under the
forward-kinematics mapping; it is always at least 3, and in particular
displacement 0.3 gives 3 steps and displacement 1.7 gives 4 steps. -/
theorem step_count_formula (env : Env) (w1 w2 : Vec) :
    segSteps env w1 w2 = specSteps (dispOf env w1 w2)
    ∧ 3 ≤ segSteps env w1 w2
    ∧ specSteps (3/10) = 3 ∧ specSteps (17/10) = 4 :=
  ⟨rfl, le_max_right _ _, by with_unfolding_all decide, by with_unfolding_all decide⟩

/-- Claim C3: the Safety Validator reports unsafe exactly when some
sampled pose of the candidate trajectory, with the arm set to that
sample, reports contact between the two configured links (indices 3 and
6); with an all-contact collision backend it rejects at the very first
sample; and it reports safe when no sample reports contact. -/
theorem check_safe_verdict (env : Env) (traj : List Vec) (pose : Vec) :
    ((check_safe env traj pose).1 = false ↔ ∃ t ∈ traj, env.collide 3 6 t = true)
    ∧ ((∀ p, env.collide 3 6 p = true) → ∀ t ts, check_safe env (t :: ts) pose = (false, t)) := by
  constructor
  · rw [Bool.eq_false_iff, Ne, check_safe_true_iff env traj pose]
    simp
  · intro hall t ts
    simp [check_safe, hall t]

/-- Witness for C3 at a concrete all-contact environment: validation of
a two-sample candidate rejects at the first sample and leaves the pose
there. -/
theorem check_safe_verdict_w :
    check_safe envAllBad [[1], [7]] [0] = (false, [1]) :=
  (check_safe_verdict envAllBad [] [0]).2 (fun _ => rfl) [1] [[7]]

/-- Claim C4: if for a reached segment all escalation attempts are
judged unsafe, all three strategies were attempted and the whole run
fails with the `'No path is safe'` error, producing no output
trajectory — whatever trajectory `acc` was already accumulated for
earlier segments is not emitted. -/
theorem exhausted_escalation_fails (env : Env) (manip : String) (w1 w2 : Vec)
    (rest : List Vec) (s : ArmState) (acc : List Vec)
    (h : ∀ a ∈ (refineSegment env manip w1 w2 (getArmDOF s manip)).attempts,
      a.safe = false) :
    (refineSegment env manip w1 w2 (getArmDOF s manip)).attempts.length = 3
    ∧ (optimizeFrom env manip (w1 :: w2 :: rest) s acc).2
        = Except.error ("No path is safe") := by
  have h3 := runAttempts3_exhausted env (set_request manip w2 (segSteps env w1 w2))
    w2 w1 (getArmDOF s manip) h
  refine ⟨h3.1, ?_⟩
  have hres : (refineSegment env manip w1 w2 (getArmDOF s manip)).result
      = Except.error ("No path is safe") := h3.2
  rw [optimizeFrom_cons, hres]

/-- Witness for C4 at a concrete always-colliding environment. -/
theorem exhausted_escalation_fails_w :
    (optimizeFrom envAllBad ("right_arm") ([0] :: [1] :: []) ⟨[0], [0]⟩ []).2
      = Except.error ("No path is safe") :=
  (exhausted_escalation_fails envAllBad ("right_arm") [0] [1] [] ⟨[0], [0]⟩ []
    (by with_unfolding_all decide)).2

/-- Claim C5, counterexample: it is not the case that every optimization
attempt of a segment runs with the arm pose set to the segment's start
waypoint.  In `envRetry`, segment `([0], [9])` has a first attempt whose
candidate is unsafe at sample `[2]`, and the retry attempt is invoked
with the arm at pose `[2]`, not at the start waypoint `[0]`. -/
theorem pose_priming_counterexample :
    ¬ (∀ a ∈ (refineSegment envRetry ("right_arm") [0] [9] [10]).attempts,
        a.posePre = [0]) := by
  with_unfolding_all decide

/-- Claim C5, amended: the arm pose is set to the segment's start
waypoint once per segment, before the first attempt; each retry attempt
is invoked with the arm at whatever pose the Safety Validator left after
the previous attempt (so only the first attempt's pinned first time-step
is guaranteed to equal the segment's start waypoint). -/
theorem pose_priming_once_per_segment (env : Env) (manip : String) (w1 w2 dof : Vec) :
    (refineSegment env manip w1 w2 dof).attempts.map (fun a => a.posePre)
      = w1 :: ((refineSegment env manip w1 w2 dof).attempts.dropLast.map
          (fun a => (check_safe env a.cand a.posePre).2)) :=
  runAttempts_pose_chain env (set_request manip w2 (segSteps env w1 w2)) w2 [1, 2] 0 w1 dof

/-- Claim C6: in the retraction strategy (j = 1), the last joint of the
pulled-back record equals `max(L, v - 5)` for the configured joint-limit
entry `L` and the current stored last-joint value `v`; it is therefore
never below `L`, and the strategy aims a straight line at exactly the
pulled-back record. -/
theorem retraction_clamp (env : Env) (target dof : Vec) (h : dof ≠ []) :
    ((initFor env 1 target dof).2).getLastD 0
        = max env.limitLast (dof.getLastD 0 - 5)
    ∧ env.limitLast ≤ ((initFor env 1 target dof).2).getLastD 0
    ∧ (initFor env 1 target dof).1
        = some (InitInfo.straight_line ((initFor env 1 target dof).2)) := by
  have e2 : (initFor env 1 target dof).2
      = setLast dof (max env.limitLast (dof.getLastD 0 - 5)) := by
    simp [initFor]
  have hg := getLastD_setLast dof (max env.limitLast (dof.getLastD 0 - 5)) 0 h
  refine ⟨by rw [e2, hg], ?_, by simp [initFor]⟩
  rw [e2, hg]
  exact le_max_left _ _

/-- Witness for C6 at limit 0 and stored record `[10]`: the pulled-back
value is `max(0, 10 - 5)`. -/
theorem retraction_clamp_w :
    ((initFor envAllSafe 1 [0] [10]).2).getLastD 0
      = max envAllSafe.limitLast (([10] : Vec).getLastD 0 - 5)
    ∧ envAllSafe.limitLast ≤ ((initFor envAllSafe 1 [0] [10]).2).getLastD 0 :=
  ⟨(retraction_clamp envAllSafe [0] [10] (by simp)).1,
   (retraction_clamp envAllSafe [0] [10] (by simp)).2.1⟩

/-- Claim C7: when every segment is accepted, the assembled output
trajectory is the concatenation in waypoint-pair order of the accepted
per-segment candidates, with no reordering and no deduplication, and its
length is the sum of the accepted candidates' lengths. -/
theorem assembled_concatenation (env : Env) (manip : String) (ws : List Vec)
    (s : ArmState) (cs : List (List Vec))
    (h : segmentCands env manip ws s = some cs) :
    (optimize env manip s ws).2 = Except.ok cs.flatten
    ∧ cs.flatten.length = (cs.map List.length).sum := by
  constructor
  · have hh := optimizeFrom_segmentCands env manip ws s [] cs h
    simpa [optimize] using hh
  · exact List.length_flatten cs

/-- Witness for C7: a two-segment all-safe run assembles both accepted
candidates in order. -/
theorem assembled_concatenation_w :
    (optimize envAllSafe ("right_arm") ⟨[0], [0]⟩ ([[0], [1], [2]])).2
      = Except.ok (([[[1], [2]], [[1], [2]]] : List (List Vec)).flatten) :=
  (assembled_concatenation envAllSafe ("right_arm") [[0], [1], [2]] ⟨[0], [0]⟩
    [[[1], [2]], [[1], [2]]] (by with_unfolding_all decide)).1

/-- Claim C8: every request submitted during a segment's escalation
reproduces the fixed schema field-for-field: `basic_info` holds the
segment's step count, the manipulator identifier and `start_fixed =
true`; `costs` is the joint-velocity cost plus one continuous and one
discrete collision cost, each with distance penalty 0.1; `constraints`
is the joint-space target (the segment's end waypoint) plus one
`cart_vel` constraint per named link spanning steps 0 through
`n_steps - 1`; each attempt carries exactly one `init_info`, and the
builder itself leaves `init_info` unset. -/
theorem request_schema (env : Env) (manip : String) (w1 w2 dof : Vec) (a : Attempt)
    (h : a ∈ (refineSegment env manip w1 w2 dof).attempts) :
    a.req.basic_info = ⟨segSteps env w1 w2, manip, true⟩
    ∧ a.req.costs = [Cost.joint_vel [100, 100, 1],
        Cost.collision [10000] [1/10] true, Cost.collision [10000] [1/10] false]
    ∧ a.req.constraints = [Constrnt.joint w2,
        Constrnt.cart_vel ("s0_vel") 1 0 (segSteps env w1 w2 - 1) ("s0"),
        Constrnt.cart_vel ("s1_vel") 1 0 (segSteps env w1 w2 - 1) ("s1")]
    ∧ a.req.init_info.isSome = true
    ∧ (set_request manip w2 (segSteps env w1 w2)).init_info = none := by
  have hf := runAttempts_req_fields env (set_request manip w2 (segSteps env w1 w2))
    w2 [0, 1, 2] w1 dof a h
  rcases hf with ⟨h1, h2, h3, h4, d, h5⟩
  refine ⟨h1, h2, h3, ?_, rfl⟩
  rw [h5]
  simp only [List.mem_cons, List.not_mem_nil, or_false] at h4
  rcases h4 with h4 | h4 | h4 <;> rw [h4] <;> simp [initFor]

/-- Witness for C8: the only attempt of an all-safe segment is
`wAttempt`. -/
theorem wAttempt_mem :
    wAttempt ∈ (refineSegment envAllSafe ("right_arm") [0] [1] [0]).attempts := by
  have h0 : (attemptStep envAllSafe
      (set_request ("right_arm") [1] (segSteps envAllSafe [0] [1])) [1] 0 [0] [0]).1.safe
      = true := rfl
  show wAttempt ∈ (runAttempts envAllSafe
    (set_request ("right_arm") [1] (segSteps envAllSafe [0] [1])) [1] [0, 1, 2] [0] [0]).attempts
  rw [runAttempts_cons, if_pos h0]
  simp only [List.mem_singleton]
  rfl

/-- Witness for C8: the single attempt of an all-safe segment carries
the full schema. -/
theorem request_schema_w :
    wAttempt.req.basic_info = ⟨segSteps envAllSafe [0] [1], "right_arm", true⟩
    ∧ wAttempt.req.costs = [Cost.joint_vel [100, 100, 1],
        Cost.collision [10000] [1/10] true, Cost.collision [10000] [1/10] false]
    ∧ wAttempt.req.constraints = [Constrnt.joint [1],
        Constrnt.cart_vel ("s0_vel") 1 0 (segSteps envAllSafe [0] [1] - 1) ("s0"),
        Constrnt.cart_vel ("s1_vel") 1 0 (segSteps envAllSafe [0] [1] - 1) ("s1")]
    ∧ wAttempt.req.init_info.isSome = true
    ∧ (set_request ("right_arm") [1] (segSteps envAllSafe [0] [1])).init_info = none :=
  request_schema envAllSafe ("right_arm") [0] [1] [0] wAttempt wAttempt_mem

/-- Claim C9: after validation the arm pose is left at the last pose the
validator sampled — the final sample when the verdict is safe (the
trajectory's last element, or the entering pose for an empty
trajectory), and the first contacting sample when unsafe — with no
restoration of the pose that was current before validation. -/
theorem validator_pose_side_effect (env : Env) : ∀ (traj : List Vec) (pose : Vec),
    ((check_safe env traj pose).1 = true →
      (check_safe env traj pose).2 = traj.getLastD pose)
    ∧ ((check_safe env traj pose).1 = false →
      traj.find? (fun t => env.collide 3 6 t) = some (check_safe env traj pose).2) := by
  intro traj
  induction traj with
  | nil => intro pose; simp [check_safe]
  | cons t ts ih =>
    intro pose
    by_cases hc : env.collide 3 6 t
    · constructor
      · intro hT
        simp [check_safe, hc] at hT
      · intro _
        simp [check_safe, hc, List.find?]
    · have hc' : env.collide 3 6 t = false := by simpa using hc
      have e : check_safe env (t :: ts) pose = check_safe env ts t := by
        simp [check_safe, hc']
      constructor
      · intro hT
        rw [e] at hT ⊢
        rw [(ih t).1 hT, List.getLastD_cons]
      · intro hF
        rw [e] at hF ⊢
        rw [List.find?_cons_of_neg _ (by simp [hc'])]
        exact (ih t).2 hF

/-- Witness for C9: a safe validation leaves the pose at the last
sample; an unsafe validation leaves it at the first contacting sample,
which `find?` locates. -/
theorem validator_pose_side_effect_w :
    (check_safe envAllSafe [[1], [2]] [0]).2 = ([[1], [2]] : List Vec).getLastD [0]
    ∧ ([[1], [2]] : List Vec).find? (fun t => envRetry.collide 3 6 t)
        = some (check_safe envRetry [[1], [2]] [0]).2 :=
  ⟨(validator_pose_side_effect envAllSafe [[1], [2]] [0]).1 (by with_unfolding_all decide),
   (validator_pose_side_effect envRetry [[1], [2]] [0]).2 (by with_unfolding_all decide)⟩

/-- Claim C10: the retraction strategy mutates the stored per-arm DOF
record in place: whenever a segment makes more than one attempt (so
j = 1 ran), the record that the segment loop threads onward is the old
record with its last entry replaced by `max(limit, old - 5)`; and after
an accepted segment, the assembler continues with exactly that mutated
record stored for the arm, so a later segment's retraction starts from
the already-retracted value rather than from the configuration given to
`set_manip`. -/
theorem dof_record_mutation (env : Env) (manip : String) (w1 w2 : Vec)
    (rest : List Vec) (s : ArmState) (acc : List Vec) :
    (2 ≤ (refineSegment env manip w1 w2 (getArmDOF s manip)).attempts.length →
      (refineSegment env manip w1 w2 (getArmDOF s manip)).dof
        = setLast (getArmDOF s manip)
            (max env.limitLast ((getArmDOF s manip).getLastD 0 - 5)))
    ∧ (∀ cand, (refineSegment env manip w1 w2 (getArmDOF s manip)).result
          = Except.ok cand →
        optimizeFrom env manip (w1 :: w2 :: rest) s acc
          = optimizeFrom env manip (w2 :: rest)
              (set_manip s manip ((refineSegment env manip w1 w2 (getArmDOF s manip)).dof))
              (acc ++ cand)) := by
  constructor
  · intro h2
    exact runAttempts3_dof env (set_request manip w2 (segSteps env w1 w2)) w2 w1
      (getArmDOF s manip) h2
  · intro cand hok
    rw [optimizeFrom_cons, hok]

/-- Witness for C10: with the arm record set to `[10]` by `set_manip`
and limit 0, a segment that retries once leaves the stored record
`[5] = setLast [10] (max 0 (10 - 5))`, and the assembler continues the
run with that mutated record. -/
theorem dof_record_mutation_w :
    (refineSegment envRetry ("right_arm") [0] [9]
        (getArmDOF (set_manip ⟨[0], [0]⟩ ("right_arm") [10]) ("right_arm"))).dof
      = setLast (getArmDOF (set_manip ⟨[0], [0]⟩ ("right_arm") [10]) ("right_arm"))
          (max envRetry.limitLast
            ((getArmDOF (set_manip ⟨[0], [0]⟩ ("right_arm") [10]) ("right_arm")).getLastD 0 - 5))
    ∧ optimizeFrom envRetry ("right_arm") ([0] :: [9] :: [[7]])
          (set_manip ⟨[0], [0]⟩ ("right_arm") [10]) []
        = optimizeFrom envRetry ("right_arm") ([9] :: [[7]])
            (set_manip (set_manip ⟨[0], [0]⟩ ("right_arm") [10]) ("right_arm")
              ((refineSegment envRetry ("right_arm") [0] [9]
                (getArmDOF (set_manip ⟨[0], [0]⟩ ("right_arm") [10]) ("right_arm"))).dof))
            ([] ++ [[3]]) :=
  ⟨(dof_record_mutation envRetry ("right_arm") [0] [9] [[7]]
      (set_manip ⟨[0], [0]⟩ ("right_arm") [10]) []).1 (by with_unfolding_all decide),
   (dof_record_mutation envRetry ("right_arm") [0] [9] [[7]]
      (set_manip ⟨[0], [0]⟩ ("right_arm") [10]) []).2 [[3]] (by with_unfolding_all rfl)⟩

end MotionPlanning
